import Mathlib

/-!
Verification of the Indian-Startup-News-Tracker pipeline (`custom_web_bot`).

The pipeline's state lives in JSON files; we embed each file as a Lean value:
  * `urls/{id}.json`      (cumulative URLSet)  : `Option (List String)` — `none` means
    the file does not exist on disk;
  * `new_urls/{id}.json`  (per-source DeltaSet): likewise;
  * the source-config list (`sample_mapping.json`): a `List ConfigEntry`.

Python's `list(set(..))` iterates a set in unspecified order; we model it by
`List.dedup` of a concatenation and state all set-level claims via `List.toFinset`,
which is order-independent.  `sorted(set(a) - set(b))` is modelled faithfully as an
insertion sort of the deduplicated difference.
-/

namespace NewsTracker

/-- Python's `sorted` on a list of strings (ascending

  lexicographic order, stable; on deduplicated input any correct sort agrees). -/
def pySorted (l : List String) : List String :=
  l.insertionSort (· ≤ ·)

/-- Python `sorted(set(urls) - set(existing))` from `RssHandler.update_file` (url_extractor.py:98). -/
def pySortedSetDiff (urls existing : List String) : List String :=
  pySorted ((urls.filter (fun u => decide (u ∉ existing))).dedup)

/-- Python `list(set(urls) | set(existing))` (url_extractor.py:99, dbmanager.py:225).
Python set order is unspecified; we fix first-occurrence order via `dedup`. -/
def pyUnion (urls existing : List String) : List String :=
  (urls ++ existing).dedup

/-- Python `list(set(cur_urls) - set(old_urls))` from `CustomScraper.process`
(xpathsraper.py:78,83); unsorted, order fixed to first occurrence. -/
def pySetDiff (cur old : List String) : List String :=
  (cur.filter (fun u => decide (u ∉ old))).dedup

/-- Python `range(a, b)`. -/
def pyRange (a b : Nat) : List Nat :=
  List.range' a (b - a)

/-- A Python exception class (only the classes the modelled code can raise). -/
inductive PyError
  | keyError
  | indexError
  | valueError
deriving DecidableEq, Repr

/-- The two per-source URL files: `urls/{id}.json` (cumulative URLSet, `oldFile`)
and `new_urls/{id}.json` (DeltaSet, `newFile`); `none` = file absent on disk. -/
structure UrlFiles where
  oldFile : Option (List String)
  newFile : Option (List String)
deriving DecidableEq, Repr

namespace RssHandler

/-- File-creating part of `RssHandler.__init__` (url_extractor.py:26-32): both
files are created holding `[]` when absent. -/
def init (st : UrlFiles) : UrlFiles :=
  { oldFile := some (st.oldFile.getD []),
    newFile := some (st.newFile.getD []) }

/-- Method `RssHandler.update_file` (url_extractor.py:89-107).  `urls` is the candidate
list returned by `extract_urls`.  On an empty candidate list the method prints
and returns without touching either file; otherwise it writes
`sorted(set(urls) - set(existing))` to the DeltaSet file and
`list(set(urls) | set(existing))` to the cumulative file. -/
def update_file (st : UrlFiles) (urls : List String) : UrlFiles :=
  if urls.isEmpty then st
  else
    let existing := st.oldFile.getD []
    { newFile := some (pySortedSetDiff urls existing),
      oldFile := some (pyUnion urls existing) }

end RssHandler

namespace CustomScraper

/-- Method `CustomScraper.process` (xpathsraper.py:59-83).  `cur_urls` is what
`fetch_urls` returned.  The cumulative file is created holding `[]` when
absent but its contents are never updated; only the DeltaSet file is written,
with `list(set(cur_urls) - set(old_urls))`. -/
def process (st : UrlFiles) (cur_urls : List String) : UrlFiles :=
  let old_urls := st.oldFile.getD []
  { oldFile := some old_urls,
    newFile := some (pySetDiff cur_urls old_urls) }

end CustomScraper

/-- One entry of the source-config list (`sample_mapping.json`); `article_cnt`
is `none` when the key is absent from the JSON object. -/
structure ConfigEntry where
  id : String
  article_cnt : Option Nat
deriving DecidableEq, Repr

/-- The state touched by `merge_files`: the per-source DeltaSet file, the
per-source cumulative file, and the config list at `map_path`. -/
structure MergeState where
  newFile : Option (List String)
  oldFile : Option (List String)
  mapData : List ConfigEntry
deriving DecidableEq, Repr

/-- The `for entry in map_data: if entry.get("id") == id: entry["article_cnt"] =
entry.get("article_cnt", 0) + new_url_cnt; break` loop of `merge_files`
(dbmanager.py:235-238): only the first matching entry is updated. -/
def update_map : List ConfigEntry → String → Nat → List ConfigEntry
  | [], _, _ => []
  | e :: rest, id, cnt =>
    if e.id = id then { e with article_cnt := some (e.article_cnt.getD 0 + cnt) } :: rest
    else e :: update_map rest id cnt

/-- Function `merge_files` (dbmanager.py:205-241): creates either file holding `[]` when
absent, reads both, rewrites the DeltaSet file to
`list(set(new_urls) | set(old_urls))`, and — only when the delta is
non-empty — bumps the matching config entry's `article_cnt` by the delta's
length.  The cumulative file's contents are never modified. -/
def merge_files (st : MergeState) (id : String) : MergeState :=
  let new_urls := st.newFile.getD []
  let old_urls := st.oldFile.getD []
  let all_urls := pyUnion new_urls old_urls
  { newFile := some all_urls,
    oldFile := some old_urls,
    mapData :=
      if 0 < new_urls.length then update_map st.mapData id new_urls.length
      else st.mapData }

/-- The persisted `article_cnt` read for source `id` from a config list, with
Python's `entry.get("article_cnt", 0)` default (first matching entry). -/
def cntOf (m : List ConfigEntry) (id : String) : Nat :=
  ((m.find? (fun e => e.id == id)).map (fun e => e.article_cnt.getD 0)).getD 0

/-- A `url_conf` dictionary as the allocator sees it; `none` marks an absent key. -/
structure UrlConf where
  id : Option String
  article_cnt : Option Nat
deriving DecidableEq, Repr

namespace ArticleExtractor

/-- The config reads of `ArticleExtractor.__init__` (article_extractor.py:46-47):
`url_conf["id"]` raises `KeyError` when absent, while
`url_conf.get("article_cnt", 0)` silently defaults to `0`. -/
def init_fields (conf : UrlConf) : Except PyError (String × Nat) :=
  match conf.id with
  | none => .error .keyError
  | some i => .ok (i, conf.article_cnt.getD 0)

/-- Method `ArticleExtractor.map_urls` (article_extractor.py:65-68):
`for i, url in enumerate(self.new_urls, start=1): self.map[url] = self.article_cnt + i`.
The dict is modelled as an insertion-ordered association list. -/
def map_urls (article_cnt : Nat) (new_urls : List String) : List (String × Nat) :=
  new_urls.enum.map (fun p => (p.2, article_cnt + (p.1 + 1)))

/-- Python `str(i).zfill(4)` for a natural number (no sign handling needed). -/
def zfill (width : Nat) (s : String) : String :=
  if width ≤ s.length then s else String.mk (List.replicate (width - s.length) '0') ++ s

/-- The composite key `f"{self.id}_{str(i).zfill(4)}"` of
`ArticleExtractor.process_result` (article_extractor.py:89). -/
def fileid (id : String) (i : Nat) : String :=
  id ++ ("_") ++ zfill 4 (toString i)

end ArticleExtractor

/-- The filename list built by `DBHandler.__init__` (dbmanager.py:37-40) and
`Summariser.__init__` (summariser.py:59-61):
`for i in range(article_cnt + 1, article_cnt + len(new_article_urls) + 1)`,
filenames `f"{id}_{str(i).zfill(4)}.json"`. -/
def new_filepaths (id : String) (article_cnt : Nat) (new_article_urls : List String) : List String :=
  (pyRange (article_cnt + 1) (article_cnt + new_article_urls.length + 1)).map
    (fun i => ArticleExtractor.fileid id i ++ (".json"))

/-- One row of the `articles` table (dbmanager.py:52-59): `id INTEGER PRIMARY
KEY`, `html TEXT` (nullable), `pos TEXT NOT NULL`. -/
structure Row where
  id : Nat
  html : Option String
  pos : String
deriving DecidableEq, Repr

/-- SQLite's `MIN(id)` aggregate over a group's ids (`none` on an empty group,
which `GROUP BY` never produces). -/
def sqlMin : List Nat → Option Nat
  | [] => none
  | x :: xs =>
    match sqlMin xs with
    | none => some x
    | some m => some (Nat.min x m)

/-- The distinct `(pos, html)` group keys produced by `GROUP BY pos, html`. -/
def groupKeys (rows : List Row) : List (String × Option String) :=
  (rows.map (fun r => (r.pos, r.html))).dedup

/-- The subquery `SELECT MIN(id) FROM articles GROUP BY pos, html`
(dbmanager.py:169). -/
def minIds (rows : List Row) : List Nat :=
  (groupKeys rows).filterMap
    (fun k => sqlMin ((rows.filter (fun r => decide ((r.pos, r.html) = k))).map (fun r => r.id)))

/-- Method `DBHandler.delete_duplicates` (dbmanager.py:164-174):
`DELETE FROM articles WHERE id NOT IN (SELECT MIN(id) ... GROUP BY pos, html)`;
the surviving table keeps exactly the rows whose id is in the subquery. -/
def delete_duplicates (rows : List Row) : List Row :=
  rows.filter (fun r => decide (r.id ∈ minIds rows))

/-- A parsed per-article JSON record as `Summariser.process_article` sees it;
`none` marks an absent key (`html` is deleted on write, `summary` absent until
the stage runs). -/
structure ArticleData where
  url : String
  html : Option String
  path : String
  title : String
  date : String
  summary : Option String
  keywords : List String
deriving DecidableEq, Repr

/-- The JSON object `llm_call` returns after `json.loads`; fields read with
`result.get(key, default)`, so each is optional. -/
structure LlmResult where
  summary : Option String
  title : Option String
  keywords : Option (List String)
deriving DecidableEq, Repr

namespace Summariser

/-- Method `Summariser.process_article` (summariser.py:92-125) on an existing record
file, given the outcome of the awaited `llm_call` (`Except.error` = the call
raised).  Returns the number of LLM calls made and `some` rewritten record
when the file is written back, `none` when it is left untouched. -/
def process_article (data : ArticleData) (outcome : Except PyError LlmResult) :
    Nat × Option ArticleData :=
  if (data.html.getD ("")).trim = ("") then (0, none)
  else if (data.summary.getD ("")) ≠ ("") then (0, none)
  else
    match outcome with
    | .error _ => (1, none)
    | .ok r =>
      (1, some { url := data.url, html := none, path := data.path,
                 title := r.title.getD (""), date := data.date,
                 summary := some (r.summary.getD ("")),
                 keywords := r.keywords.getD [] })

end Summariser

/-- The three-backtick marker, as a character list. -/
def bt : List Char := ("```").toList

/-- First index (from the front of `l`) at which `pat` occurs as a contiguous
sublist; building block for Python's `str.find`. -/
def findIdx (pat : List Char) : List Char → Option Nat
  | [] => if pat.isPrefixOf ([] : List Char) then some 0 else none
  | c :: rest =>
    if pat.isPrefixOf (c :: rest) then some 0
    else (findIdx pat rest).map (· + 1)

/-- Python's `s.find(pat, start)`; `none` models the `-1` "not found" result. -/
def pyFind (s pat : List Char) (start : Nat) : Option Nat :=
  (findIdx pat (s.drop start)).map (· + start)

/-- Python's `str.strip()`: drop leading and trailing whitespace. -/
def pyStrip (l : List Char) : List Char :=
  ((l.dropWhile Char.isWhitespace).reverse.dropWhile Char.isWhitespace).reverse

/-- Function `extract_between_backticks` (summariser.py:19-26), transliterated:
`start = text.find("```")`; if found, `end = text.find("```", start + 3)`;
if found, return `text[start + 3 : end].strip()`; else return `""`. -/
def extract_between_backticks (text : List Char) : List Char :=
  match pyFind text bt 0 with
  | none => []
  | some start =>
    match pyFind text bt (start + 3) with
    | none => []
    | some e => pyStrip ((text.drop (start + 3)).take (e - (start + 3)))

/-- Specification-style splitter: `some (before, after)` splits the input at
the first occurrence of the triple-backtick marker. -/
def splitMarker : List Char → Option (List Char × List Char)
  | [] => none
  | c :: rest =>
    if bt.isPrefixOf (c :: rest) then some ([], (c :: rest).drop 3)
    else (splitMarker rest).map (fun p => (c :: p.1, p.2))

/-- Specification-style reading of the claim: the text strictly between the
first two markers, stripped; `""` when fewer than two markers exist. -/
def extractSpec (text : List Char) : List Char :=
  match splitMarker text with
  | none => []
  | some (_, rest) =>
    match splitMarker rest with
    | none => []
    | some (mid, _) => pyStrip mid

/-- The post-extraction step of `Summariser.llm_call` (summariser.py:86-88):
`s1[0]` raises `IndexError` on an empty extraction; otherwise the string handed
to `json.loads` is `s1[4:]` when `s1[0] == "j"`, else `s1` itself. -/
def llm_payload (resp : List Char) : Except PyError (List Char) :=
  match extract_between_backticks resp with
  | [] => .error .indexError
  | c :: t => .ok (if c = 'j' then (c :: t).drop 4 else c :: t)

/-! ### Helper lemmas -/

lemma toFinset_pySortedSetDiff (urls existing : List String) :
    (pySortedSetDiff urls existing).toFinset = urls.toFinset \ existing.toFinset := by
  ext a
  simp [pySortedSetDiff, pySorted, List.mem_insertionSort, List.mem_dedup, List.mem_filter]

lemma toFinset_pyUnion (a b : List String) :
    (pyUnion a b).toFinset = a.toFinset ∪ b.toFinset := by
  ext x
  simp [pyUnion, List.mem_dedup]

lemma toFinset_pySetDiff (cur old : List String) :
    (pySetDiff cur old).toFinset = cur.toFinset \ old.toFinset := by
  ext a
  simp [pySetDiff, List.mem_dedup, List.mem_filter]

lemma map_urls_fst (k : Nat) (urls : List String) :
    (ArticleExtractor.map_urls k urls).map Prod.fst = urls := by
  have h := List.enum_map_snd urls
  simp only [ArticleExtractor.map_urls, List.map_map]
  simp [Function.comp_def, h]

lemma map_urls_snd (k : Nat) (urls : List String) :
    (ArticleExtractor.map_urls k urls).map Prod.snd = List.range' (k + 1) urls.length := by
  simp only [ArticleExtractor.map_urls, List.map_map]
  rw [show (Prod.snd ∘ fun p : Nat × String => (p.2, k + (p.1 + 1)))
        = ((fun i => k + (i + 1)) ∘ Prod.fst) from rfl]
  rw [← List.map_map, List.enum_map_fst, List.range'_eq_map_range]
  exact List.map_congr_left (fun a _ => by omega)

lemma cntOf_update_map (m : List ConfigEntry) (id : String) (c : Nat)
    (h : (m.find? (fun e => e.id == id)).isSome) :
    cntOf (update_map m id c) id = cntOf m id + c := by
  induction m with
  | nil => simp [List.find?] at h
  | cons e rest ih =>
    by_cases he : e.id = id
    · have hb : (e.id == id) = true := beq_iff_eq.mpr he
      simp only [update_map, if_pos he]
      simp [cntOf, List.find?_cons, hb]
    · have hb : (e.id == id) = false := beq_eq_false_iff_ne.mpr he
      have h' : (rest.find? (fun e => e.id == id)).isSome := by
        simpa [List.find?_cons, hb] using h
      have hcons : ∀ rest' : List ConfigEntry, cntOf (e :: rest') id = cntOf rest' id := by
        intro rest'
        simp [cntOf, List.find?_cons, hb]
      simp only [update_map, if_neg he]
      rw [hcons, hcons]
      exact ih h'

lemma update_map_of_find?_none (m : List ConfigEntry) (id : String) (c : Nat)
    (h : m.find? (fun e => e.id == id) = none) :
    update_map m id c = m := by
  induction m with
  | nil => rfl
  | cons e rest ih =>
    have hne : ¬ e.id = id := by
      intro he
      rw [List.find?_cons_of_pos _ (by simp [he])] at h
      exact Option.noConfusion h
    rw [List.find?_cons_of_neg _ (by simp [hne])] at h
    rw [update_map, if_neg hne, ih h]

lemma sqlMin_eq_none_iff (l : List Nat) : sqlMin l = none ↔ l = [] := by
  cases l with
  | nil => simp [sqlMin]
  | cons x xs => cases h : sqlMin xs <;> simp [sqlMin, h]

lemma sqlMin_mem : ∀ {l : List Nat} {a : Nat}, sqlMin l = some a → a ∈ l := by
  intro l
  induction l with
  | nil => intro a h; simp [sqlMin] at h
  | cons x xs ih =>
    intro a h
    cases hm : sqlMin xs with
    | none =>
      simp only [sqlMin, hm] at h
      injection h with h2
      subst h2
      exact List.mem_cons_self x xs
    | some m =>
      simp only [sqlMin, hm] at h
      injection h with h2
      subst h2
      show (if x ≤ m then x else m) ∈ x :: xs
      by_cases hle : x ≤ m
      · rw [if_pos hle]; exact List.mem_cons_self x xs
      · rw [if_neg hle]; exact List.mem_cons_of_mem x (ih hm)

lemma sqlMin_le : ∀ (l : List Nat) (a : Nat), sqlMin l = some a → ∀ b ∈ l, a ≤ b := by
  intro l
  induction l with
  | nil => intro a h; simp [sqlMin] at h
  | cons x xs ih =>
    intro a h b hb
    cases hm : sqlMin xs with
    | none =>
      have hxs : xs = [] := (sqlMin_eq_none_iff xs).mp hm
      subst hxs
      simp only [sqlMin] at h
      injection h with h2
      subst h2
      simp at hb
      omega
    | some m =>
      simp only [sqlMin, hm] at h
      injection h with h2
      subst h2
      rcases List.mem_cons.mp hb with hb1 | hb'
      · rw [hb1]; exact Nat.min_le_left x m
      · exact le_trans (Nat.min_le_right x m) (ih m hm b hb')

lemma sqlMin_eq_some_of (l : List Nat) (a : Nat) (ha : a ∈ l) (hlb : ∀ b ∈ l, a ≤ b) :
    sqlMin l = some a := by
  cases hm : sqlMin l with
  | none =>
    rw [(sqlMin_eq_none_iff l).mp hm] at ha
    simp at ha
  | some m =>
    have h1 : a ≤ m := hlb m (sqlMin_mem hm)
    have h2 : m ≤ a := sqlMin_le l m hm a ha
    exact congrArg some (le_antisymm h2 h1)

/-- With distinct ids, a row's id belongs to the `MIN(id) GROUP BY pos, html`
subquery iff the row has the least id of its `(pos, html)` group. -/
lemma mem_minIds_iff (rows : List Row) (hn : (rows.map (fun r => r.id)).Nodup)
    {r : Row} (hr : r ∈ rows) :
    r.id ∈ minIds rows ↔ ∀ s ∈ rows, s.pos = r.pos → s.html = r.html → r.id ≤ s.id := by
  have inj := List.inj_on_of_nodup_map hn
  constructor
  · intro hmem
    rw [minIds, List.mem_filterMap] at hmem
    obtain ⟨k, _, hsql⟩ := hmem
    obtain ⟨s, hsfil, hsid⟩ := List.mem_map.mp (sqlMin_mem hsql)
    have hsrows : s ∈ rows := (List.mem_filter.mp hsfil).1
    have hskey : (s.pos, s.html) = k := by
      have := (List.mem_filter.mp hsfil).2
      simpa using this
    obtain rfl : s = r := inj hsrows hr hsid
    intro t ht hpos hhtml
    have htfil : t ∈ rows.filter (fun x => decide ((x.pos, x.html) = k)) := by
      rw [List.mem_filter]
      refine ⟨ht, ?_⟩
      simp [← hskey, hpos, hhtml]
    exact sqlMin_le _ _ hsql _ (List.mem_map.mpr ⟨t, htfil, rfl⟩)
  · intro hlb
    have hkmem : (r.pos, r.html) ∈ groupKeys rows := by
      rw [groupKeys, List.mem_dedup, List.mem_map]
      exact ⟨r, hr, rfl⟩
    have hridmem : r.id
        ∈ (rows.filter (fun x => decide ((x.pos, x.html) = (r.pos, r.html)))).map
            (fun x => x.id) :=
      List.mem_map.mpr ⟨r, List.mem_filter.mpr ⟨hr, by simp⟩, rfl⟩
    have hlb' : ∀ b ∈ (rows.filter (fun x => decide ((x.pos, x.html) = (r.pos, r.html)))).map
        (fun x => x.id), r.id ≤ b := by
      intro b hb
      obtain ⟨s, hsfil, rfl⟩ := List.mem_map.mp hb
      obtain ⟨hsrows, hskey⟩ := List.mem_filter.mp hsfil
      simp only [decide_eq_true_eq, Prod.mk.injEq] at hskey
      exact hlb s hsrows hskey.1 hskey.2
    rw [minIds, List.mem_filterMap]
    exact ⟨(r.pos, r.html), hkmem, sqlMin_eq_some_of _ _ hridmem hlb'⟩

lemma pyFind_zero (s pat : List Char) : pyFind s pat 0 = findIdx pat s := by
  cases h : findIdx pat s <;> simp [pyFind, h]

/-- The first-occurrence splitter agrees with the `find`-style index search:
`splitMarker l` yields the text before the first marker and the text after it,
at the index `findIdx` reports. -/
lemma splitMarker_eq (l : List Char) :
    splitMarker l = (findIdx bt l).map (fun n => (l.take n, l.drop (n + 3))) := by
  induction l with
  | nil =>
    have h : findIdx bt [] = none := by decide
    rw [h]; rfl
  | cons c rest ih =>
    by_cases hpre : bt.isPrefixOf (c :: rest) = true
    · simp [splitMarker, findIdx, hpre]
    · have hpre' : bt.isPrefixOf (c :: rest) = false := by
        cases hh : bt.isPrefixOf (c :: rest)
        · rfl
        · exact absurd hh hpre
      simp only [splitMarker, findIdx, hpre', Bool.false_eq_true, if_false]
      rw [ih]
      cases hf : findIdx bt rest with
      | none => rfl
      | some n =>
        simp only [Option.map_some']
        have h2 : (c :: rest).drop (n + 1 + 3) = rest.drop (n + 3) := by
          rw [show n + 1 + 3 = (n + 3) + 1 from by omega, List.drop_succ_cons]
        rw [List.take_succ_cons, h2]

/-! ### Claim theorems -/

/-- C4: with persisted counter `k` and persisted delta list of length `n`, the
allocator assigns indices `k+1, …, k+n` in delta order (keys in delta order,
indices `range' (k+1) n`), the composite key is the id joined with the 4-digit
zero-padded index, and concretely with `article_cnt = 7` and delta
`["a.com/3", "a.com/4"]` the indices are 8 and 9 with keys `"techcrunch_0008"`
and `"techcrunch_0009"`. -/
theorem claim_C4_sequential_index_allocation :
    (∀ (k : Nat) (urls : List String),
        (ArticleExtractor.map_urls k urls).map Prod.fst = urls ∧
        (ArticleExtractor.map_urls k urls).map Prod.snd = List.range' (k + 1) urls.length)
    ∧ ArticleExtractor.map_urls 7 [("a.com/3"), ("a.com/4")]
        = [(("a.com/3"), 8), (("a.com/4"), 9)]
    ∧ ArticleExtractor.fileid ("techcrunch") 8 = ("techcrunch_0008")
    ∧ ArticleExtractor.fileid ("techcrunch") 9 = ("techcrunch_0009") :=
  ⟨fun k urls => ⟨map_urls_fst k urls, map_urls_snd k urls⟩, by decide, by decide, by decide⟩

/-- C5 counterexample: with an empty candidate list, `RssHandler.update_file`
returns early and does not write the DeltaSet file, so a stale non-empty delta
(here `["d"]`) survives — the persisted DeltaSet is not empty as the claim
states. -/
theorem claim_C5_counterexample :
    RssHandler.update_file ⟨some [("u")], some [("d")]⟩ []
        = ⟨some [("u")], some [("d")]⟩
    ∧ (some [("d")] : Option (List String)) ≠ some [] := by
  exact ⟨rfl, by decide⟩

/-- C5 (amended): on an empty candidate set the xpath scraper persists an empty
DeltaSet and leaves the cumulative file's contents unchanged, while the RSS
handler returns early and writes nothing at all (so its DeltaSet file may
retain a previous run's non-empty delta); downstream stages treat an empty
delta as nothing to do: both the file-path builder and the allocator produce
the empty list. -/
theorem claim_C5_empty_candidate_reconcile :
    ∀ (st : UrlFiles) (id : String) (k : Nat),
      (CustomScraper.process st []).newFile = some []
      ∧ (CustomScraper.process st []).oldFile = some (st.oldFile.getD [])
      ∧ RssHandler.update_file st [] = st
      ∧ new_filepaths id k [] = []
      ∧ ArticleExtractor.map_urls k [] = [] := by
  intro st id k
  refine ⟨rfl, rfl, rfl, ?_, rfl⟩
  simp [new_filepaths, pyRange]

/-- C6: a record whose `summary` is already non-empty is skipped: zero LLM
calls and no write-back, whatever the (unused) LLM outcome would have been. -/
theorem claim_C6_summarize_skip_idempotence :
    ∀ (data : ArticleData) (outcome : Except PyError LlmResult),
      (data.summary.getD ("")) ≠ ("") →
      Summariser.process_article data outcome = (0, none) := by
  intro data outcome h
  simp [Summariser.process_article, h]

theorem claim_C6_witness :
    Summariser.process_article
        ⟨("u"), some ("content"), ("p"), ("t"), ("d"), some ("old summary"), []⟩
        (.error .valueError)
      = (0, none) :=
  claim_C6_summarize_skip_idempotence _ _ (by decide)

/-- C7 counterexample: a config entry whose `article_cnt` key is absent (it
"cannot be read") does not make the allocator fail: `ArticleExtractor.__init__`
silently defaults the counter to 0 and continues; no `ConfigurationError`
exists in the code. -/
theorem claim_C7_counterexample :
    (UrlConf.mk (some ("techcrunch")) none).article_cnt = none
    ∧ ArticleExtractor.init_fields (UrlConf.mk (some ("techcrunch")) none)
        = .ok (("techcrunch"), 0) :=
  ⟨rfl, rfl⟩

/-- C7 (amended): the allocator's config reads never raise on a missing
`article_cnt` — it silently defaults to 0 and allocation proceeds, assigning
indices 1..n; only a missing `id` key raises (a `KeyError`). -/
theorem claim_C7_config_read_behaviour :
    ∀ (conf : UrlConf),
      (∀ i, conf.id = some i →
          ArticleExtractor.init_fields conf = .ok (i, conf.article_cnt.getD 0))
      ∧ (conf.id = none → ArticleExtractor.init_fields conf = .error .keyError)
      ∧ (conf.article_cnt = none → ∀ i, conf.id = some i → ∀ urls,
          ArticleExtractor.init_fields conf = .ok (i, 0)
          ∧ (ArticleExtractor.map_urls 0 urls).map Prod.snd = List.range' 1 urls.length) := by
  intro conf
  refine ⟨?_, ?_, ?_⟩
  · intro i hi; simp [ArticleExtractor.init_fields, hi]
  · intro hi; simp [ArticleExtractor.init_fields, hi]
  · intro hc i hi urls
    exact ⟨by simp [ArticleExtractor.init_fields, hi, hc], map_urls_snd 0 urls⟩

theorem claim_C7_witness :
    ArticleExtractor.init_fields ⟨some ("tc"), none⟩ = .ok (("tc"), 0)
    ∧ ArticleExtractor.init_fields ⟨none, some 5⟩ = .error .keyError :=
  ⟨((claim_C7_config_read_behaviour ⟨some ("tc"), none⟩).2.2 rfl ("tc") rfl []).1,
   (claim_C7_config_read_behaviour ⟨none, some 5⟩).2.1 rfl⟩

/-- C9 counterexample: when the cumulative `urls/{id}.json` file is absent,
`merge_files` does write it (creating it with `[]`), so "the cumulative file
is never written by commit" is false as stated. -/
theorem claim_C9_counterexample :
    (merge_files ⟨some [("x")], none, []⟩ ("s")).oldFile = some []
    ∧ (MergeState.mk (some [("x")]) none []).oldFile = none :=
  ⟨rfl, rfl⟩

/-- C9 (amended): commit's only effect on the cumulative file is to create it
empty when missing; an existing cumulative file's contents are never changed,
and the cumulative contents (absent read as `[]`) are invariant across commit.
The xpath reconcile path behaves the same way. -/
theorem claim_C9_commit_frame :
    ∀ (st : MergeState) (id : String) (st2 : UrlFiles) (cur : List String),
      (merge_files st id).oldFile.getD [] = st.oldFile.getD []
      ∧ (∀ l, st.oldFile = some l → (merge_files st id).oldFile = some l)
      ∧ (CustomScraper.process st2 cur).oldFile.getD [] = st2.oldFile.getD []
      ∧ (∀ l, st2.oldFile = some l → (CustomScraper.process st2 cur).oldFile = some l) := by
  intro st id st2 cur
  refine ⟨rfl, ?_, rfl, ?_⟩
  · intro l hl; simp [merge_files, hl]
  · intro l hl; simp [CustomScraper.process, hl]

/-- C3: commit monotonicity.  For a source with a config entry, `merge_files`
advances the persisted `article_cnt` by exactly the length of the persisted
delta list; the counter never decreases; and on a zero-size delta the config
list is unchanged while the DeltaSet file is still rewritten to the union of
delta and cumulative (which, the delta being empty, is set-equal to the
cumulative set). -/
theorem claim_C3_commit_monotonicity :
    ∀ (st : MergeState) (id : String),
      ((st.mapData.find? (fun e => e.id == id)).isSome →
          cntOf (merge_files st id).mapData id
            = cntOf st.mapData id + (st.newFile.getD []).length)
      ∧ cntOf st.mapData id ≤ cntOf (merge_files st id).mapData id
      ∧ ((st.newFile.getD []).length = 0 →
          (merge_files st id).mapData = st.mapData
          ∧ (merge_files st id).newFile
              = some (pyUnion (st.newFile.getD []) (st.oldFile.getD []))
          ∧ ((merge_files st id).newFile.getD []).toFinset
              = (st.newFile.getD []).toFinset ∪ (st.oldFile.getD []).toFinset) := by
  intro st id
  have hmap : (merge_files st id).mapData
      = if 0 < (st.newFile.getD []).length
        then update_map st.mapData id (st.newFile.getD []).length
        else st.mapData := rfl
  refine ⟨?_, ?_, ?_⟩
  · intro hs
    by_cases h0 : 0 < (st.newFile.getD []).length
    · rw [hmap, if_pos h0, cntOf_update_map _ _ _ hs]
    · have hz : (st.newFile.getD []).length = 0 := by omega
      rw [hmap, if_neg h0, hz, Nat.add_zero]
  · by_cases h0 : 0 < (st.newFile.getD []).length
    · rcases hf : st.mapData.find? (fun e => e.id == id) with _ | e
      · rw [hmap, if_pos h0, update_map_of_find?_none _ _ _ hf]
      · have hs : (st.mapData.find? (fun e => e.id == id)).isSome := by
          rw [hf]; rfl
        rw [hmap, if_pos h0, cntOf_update_map _ _ _ hs]
        omega
    · rw [hmap, if_neg h0]
  · intro hz
    have h0 : ¬ 0 < (st.newFile.getD []).length := by omega
    refine ⟨by rw [hmap, if_neg h0], rfl, ?_⟩
    have : (merge_files st id).newFile.getD []
        = pyUnion (st.newFile.getD []) (st.oldFile.getD []) := rfl
    rw [this, toFinset_pyUnion]

theorem claim_C3_witness :
    cntOf (merge_files ⟨some [("a")], some [], [⟨("s"), some 7⟩]⟩ ("s")).mapData ("s")
        = cntOf [⟨("s"), some 7⟩] ("s") + 1
    ∧ (merge_files ⟨some [], some [("u")], [⟨("s"), some 7⟩]⟩ ("s")).mapData
        = [⟨("s"), some 7⟩] :=
  ⟨(claim_C3_commit_monotonicity ⟨some [("a")], some [], [⟨("s"), some 7⟩]⟩ ("s")).1
      (by decide),
   ((claim_C3_commit_monotonicity ⟨some [], some [("u")], [⟨("s"), some 7⟩]⟩ ("s")).2.2
      (by decide)).1⟩

/-- C8: after `delete_duplicates` on a table with distinct ids (the PRIMARY KEY
invariant), no two surviving rows share the same `(pos, html)` pair; a row
survives iff it carries the least id of its `(pos, html)` group (so exactly the
lowest id among duplicates survives); and rows with a unique `(pos, html)` pair
are untouched. -/
theorem claim_C8_relational_dedup :
    ∀ (rows : List Row),
      (rows.map (fun r => r.id)).Nodup →
      (delete_duplicates rows).Pairwise (fun a b => ¬ (a.pos = b.pos ∧ a.html = b.html))
      ∧ (∀ r ∈ rows,
          (r ∈ delete_duplicates rows
            ↔ ∀ s ∈ rows, s.pos = r.pos → s.html = r.html → r.id ≤ s.id))
      ∧ (∀ r ∈ rows,
          (∀ s ∈ rows, s ≠ r → ¬ (s.pos = r.pos ∧ s.html = r.html)) →
          r ∈ delete_duplicates rows) := by
  intro rows hn
  have inj := List.inj_on_of_nodup_map hn
  have hmemiff : ∀ r ∈ rows,
      (r ∈ delete_duplicates rows
        ↔ ∀ s ∈ rows, s.pos = r.pos → s.html = r.html → r.id ≤ s.id) := by
    intro r hr
    rw [delete_duplicates, List.mem_filter]
    simp only [decide_eq_true_eq]
    constructor
    · rintro ⟨_, hmin⟩
      exact (mem_minIds_iff rows hn hr).mp hmin
    · intro h
      exact ⟨hr, (mem_minIds_iff rows hn hr).mpr h⟩
  refine ⟨?_, hmemiff, ?_⟩
  · have hsub : ∀ r ∈ delete_duplicates rows, r ∈ rows :=
      fun r hr => (List.mem_filter.mp hr).1
    have hnodup : (delete_duplicates rows).Nodup :=
      (List.Nodup.of_map _ hn).filter _
    refine List.Pairwise.imp_of_mem ?_ hnodup
    intro a b ha hb hne
    rintro ⟨hpos, hhtml⟩
    have h1 : a.id ≤ b.id :=
      (hmemiff a (hsub a ha)).mp ha b (hsub b hb) hpos.symm hhtml.symm
    have h2 : b.id ≤ a.id :=
      (hmemiff b (hsub b hb)).mp hb a (hsub a ha) hpos hhtml
    exact hne (inj (hsub a ha) (hsub b hb) (le_antisymm h1 h2))
  · intro r hr huniq
    rw [hmemiff r hr]
    intro s hs hpos hhtml
    by_cases hsr : s = r
    · rw [hsr]
    · exact absurd ⟨hpos, hhtml⟩ (huniq s hs hsr)

theorem claim_C8_witness :
    (⟨1, some ("h"), ("p")⟩ : Row)
      ∈ delete_duplicates [⟨1, some ("h"), ("p")⟩, ⟨2, some ("h"), ("p")⟩] :=
  ((claim_C8_relational_dedup [⟨1, some ("h"), ("p")⟩, ⟨2, some ("h"), ("p")⟩]
        (by decide)).2.1 ⟨1, some ("h"), ("p")⟩ (by decide)).mpr (by decide)

/-- C10: fence extraction.  `extract_between_backticks` returns exactly the
text strictly between the first two triple-backtick markers, stripped of
surrounding whitespace, and the empty string when fewer than two markers exist
(formalised as agreement with the first-occurrence splitter `extractSpec` on
every input); `llm_call`'s post-extraction step drops the first 4 characters
of the block before JSON-parsing exactly when its first character is `j`; an
empty extraction raises (`IndexError` from `s1[0]`), and an erroring
`llm_call` is caught by `process_article`, which then writes nothing. -/
theorem claim_C10_fence_extraction :
    (∀ text, extract_between_backticks text = extractSpec text)
    ∧ (∀ resp c t, extract_between_backticks resp = c :: t →
        llm_payload resp = .ok (if c = 'j' then (c :: t).drop 4 else c :: t))
    ∧ (∀ resp, extract_between_backticks resp = [] →
        llm_payload resp = .error .indexError)
    ∧ (∀ (data : ArticleData) (e : PyError),
        (Summariser.process_article data (.error e)).2 = none) := by
  refine ⟨?_, ?_, ?_, ?_⟩
  · intro text
    cases h1 : findIdx bt text with
    | none =>
      have hp : pyFind text bt 0 = none := by rw [pyFind_zero, h1]
      have hs : splitMarker text = none := by rw [splitMarker_eq, h1]; rfl
      simp [extract_between_backticks, extractSpec, hp, hs]
    | some p =>
      have hp : pyFind text bt 0 = some p := by rw [pyFind_zero, h1]
      have hs : splitMarker text = some (text.take p, text.drop (p + 3)) := by
        rw [splitMarker_eq, h1]; rfl
      cases h2 : findIdx bt (text.drop (p + 3)) with
      | none =>
        have hp2 : pyFind text bt (p + 3) = none := by simp [pyFind, h2]
        have hs2 : splitMarker (text.drop (p + 3)) = none := by
          rw [splitMarker_eq, h2]; rfl
        simp [extract_between_backticks, extractSpec, hp, hs, hp2, hs2]
      | some n =>
        have hp2 : pyFind text bt (p + 3) = some (n + (p + 3)) := by
          simp [pyFind, h2]
        have hs2 : splitMarker (text.drop (p + 3))
            = some ((text.drop (p + 3)).take n, (text.drop (p + 3)).drop (n + 3)) := by
          rw [splitMarker_eq, h2]; rfl
        simp only [extract_between_backticks, extractSpec, hp, hs, hp2, hs2]
        rw [show n + (p + 3) - (p + 3) = n from by omega]
  · intro resp c t h
    simp [llm_payload, h]
  · intro resp h
    simp [llm_payload, h]
  · intro data e
    simp only [Summariser.process_article]
    split
    · rfl
    · split
      · rfl
      · rfl

theorem claim_C10_witness :
    extract_between_backticks (("ab```json [1]``` cd").toList)
        = extractSpec (("ab```json [1]``` cd").toList)
    ∧ llm_payload (("x``` json1 ```y").toList)
        = .ok (if ('j' : Char) = 'j'
               then (('j') :: (("son1").toList)).drop 4
               else ('j') :: (("son1").toList))
    ∧ llm_payload (("no fence").toList) = .error .indexError
    ∧ (Summariser.process_article ⟨("u"), some ("h"), ("p"), ("t"), ("d"), none, []⟩
          (.error .indexError)).2 = none :=
  ⟨claim_C10_fence_extraction.1 _,
   claim_C10_fence_extraction.2.1 _ ('j') (("son1").toList) (by decide),
   claim_C10_fence_extraction.2.2.1 _ (by decide),
   claim_C10_fence_extraction.2.2.2 ⟨("u"), some ("h"), ("p"), ("t"), ("d"), none, []⟩
     .indexError⟩

/-- C1 counterexample: the xpath scraper's `process` never persists the union:
with cumulative `U = ∅` (file present, `[]`) and candidates `C = {"x"}`, the
cumulative URLSet file after `process` still holds `∅`, not `C ∪ U = {"x"}` —
so the claim fails for the xpath reconcile implementation. -/
theorem claim_C1_counterexample :
    ((CustomScraper.process ⟨some [], some []⟩ [("x")]).oldFile.getD []).toFinset
      ≠ ([("x")] : List String).toFinset ∪ ([] : List String).toFinset := by
  decide

/-- C1 (amended): the RSS handler's `update_file`, on a non-empty candidate
list, persists `delta = C - U` to the DeltaSet file and `C ∪ U` to the
cumulative URLSet file with `delta ∩ U = ∅`; the xpath scraper's `process`
persists `delta = C - U` (likewise disjoint from `U`) to the DeltaSet file but
never writes the union — its cumulative file keeps its previous contents. -/
theorem claim_C1_reconcile_delta :
    ∀ (urls existing : List String) (nf : Option (List String)) (st : UrlFiles)
      (cur : List String),
      (urls ≠ [] →
        ((RssHandler.update_file ⟨some existing, nf⟩ urls).newFile.getD []).toFinset
            = urls.toFinset \ existing.toFinset
        ∧ ((RssHandler.update_file ⟨some existing, nf⟩ urls).oldFile.getD []).toFinset
            = urls.toFinset ∪ existing.toFinset
        ∧ ((RssHandler.update_file ⟨some existing, nf⟩ urls).newFile.getD []).toFinset
            ∩ existing.toFinset = ∅)
      ∧ ((CustomScraper.process st cur).newFile.getD []).toFinset
            = cur.toFinset \ (st.oldFile.getD []).toFinset
      ∧ ((CustomScraper.process st cur).newFile.getD []).toFinset
            ∩ (st.oldFile.getD []).toFinset = ∅
      ∧ (CustomScraper.process st cur).oldFile = some (st.oldFile.getD []) := by
  intro urls existing nf st cur
  refine ⟨fun hne => ?_, ?_, ?_, rfl⟩
  · have he : urls.isEmpty = false := List.isEmpty_eq_false.mpr hne
    refine ⟨?_, ?_, ?_⟩ <;>
      simp [RssHandler.update_file, he, toFinset_pySortedSetDiff, toFinset_pyUnion,
        Finset.sdiff_inter_self]
  · simp [CustomScraper.process, toFinset_pySetDiff]
  · simp [CustomScraper.process, toFinset_pySetDiff, Finset.sdiff_inter_self]

theorem claim_C1_witness :
    ((RssHandler.update_file ⟨some [("a")], some []⟩ [("b"), ("a")]).newFile.getD []).toFinset
      = ([("b"), ("a")] : List String).toFinset \ ([("a")] : List String).toFinset :=
  ((claim_C1_reconcile_delta [("b"), ("a")] [("a")] (some []) ⟨some [], some []⟩ []).1
      (by decide)).1

/-- C2: once a first `update_file` with candidates `C` has persisted
`U ∪ C` as the cumulative set, a second `update_file` with the same candidates
persists an empty delta and leaves the cumulative set unchanged. -/
theorem claim_C2_replay_idempotence :
    ∀ (urls existing : List String) (nf : Option (List String)),
      urls ≠ [] →
      (RssHandler.update_file (RssHandler.update_file ⟨some existing, nf⟩ urls) urls).newFile
          = some []
      ∧ ((RssHandler.update_file (RssHandler.update_file ⟨some existing, nf⟩ urls)
              urls).oldFile.getD []).toFinset
          = ((RssHandler.update_file ⟨some existing, nf⟩ urls).oldFile.getD []).toFinset := by
  intro urls existing nf hne
  have he : urls.isEmpty = false := List.isEmpty_eq_false.mpr hne
  have hdelta : pySortedSetDiff urls (pyUnion urls existing) = [] := by
    unfold pySortedSetDiff pySorted
    have hfil : urls.filter (fun u => decide (u ∉ pyUnion urls existing)) = [] := by
      rw [List.filter_eq_nil_iff]
      intro a ha
      simp [pyUnion, List.mem_dedup, ha]
    rw [hfil]
    rfl
  constructor
  · simp [RssHandler.update_file, he, hdelta]
  · simp only [RssHandler.update_file, he, Bool.false_eq_true, if_false, Option.getD_some]
    rw [toFinset_pyUnion, toFinset_pyUnion]
    ext a
    simp

theorem claim_C2_witness :
    (RssHandler.update_file (RssHandler.update_file ⟨some [("u")], some []⟩ [("c")])
        [("c")]).newFile
      = some [] :=
  (claim_C2_replay_idempotence [("c")] [("u")] (some []) (by decide)).1

theorem claim_C9_witness :
    (merge_files ⟨some [], some [("a")], []⟩ ("s")).oldFile = some [("a")]
    ∧ (CustomScraper.process ⟨some [("b")], none⟩ [("c")]).oldFile = some [("b")] :=
  ⟨(claim_C9_commit_frame ⟨some [], some [("a")], []⟩ ("s") ⟨some [("b")], none⟩ [("c")]).2.1
      [("a")] rfl,
   (claim_C9_commit_frame ⟨some [], some [("a")], []⟩ ("s") ⟨some [("b")], none⟩ [("c")]).2.2.2
      [("b")] rfl⟩

end NewsTracker

